import Mathlib

/-!
# Verification of `giagrad/tensor.py` (minimal autodiff engine)

Shallow embedding of the `Tensor` / `Context` core of the giagrad
repository (file `src/giagrad/tensor.py`) and proofs about it.

Modelling conventions:

* `Buf` models a numpy `ndarray` as seen by the engine: the engine never
  inspects buffer contents, so contents are a free term algebra `BVal`
  over the numpy operations the engine invokes, while the `dtype` and
  `shape` are tracked explicitly (`np.array(data, dtype=np.float32)`
  forces float32; `np.ones(shape)` defaults to float64; the in-place
  arithmetic operators write into the left operand, hence keep its dtype
  and shape; `@` produces the matmul result shape).
* Python objects live on a heap: `Store` is a list of `Tensor` objects
  indexed by `TensorId` (object identity).  The identity-keyed `visited`
  set of `build_topo` becomes a list of ids with set-membership semantics.
* `Tensor.__slots__` makes `del tensor._ctx` meaningful: a later read of
  `tensor._ctx` raises `AttributeError`.  The `_ctx` attribute is
  therefore a three-state `CtxSlot`: present (`ctx c`), `None` (`noCtx`),
  or deleted (`del`).
* The concrete operator kernels (`giagrad.mathops` etc.) are not part of
  this file's source; an operator's `forward` and `backward` enter the
  embedding as function parameters (`fwd`, `opB`).
-/

set_option maxRecDepth 4000

namespace Giagrad

/-- Numpy dtypes the engine manipulates: `np.float32` (forced by
`Tensor.__init__`) and numpy's default `float64` (from `np.ones`). -/
inductive DType where
  | f32
  | f64
  deriving DecidableEq, Repr

/-- Free term algebra for buffer contents.  The engine treats contents
opaquely, so each numpy operation it performs becomes a constructor;
`rawV`/`randV` carry a tag identifying external data / an rng draw. -/
inductive BVal where
  | rawV (tag : Nat)
  | zerosV
  | onesV
  | emptyV
  | eyeV
  | arangeV (start stop : Nat)
  | randnV (tag : Nat)
  | uniformV (tag : Nat)
  | iaddV (a b : BVal)
  | isubV (a b : BVal)
  | imulV (a b : BVal)
  | ipowV (a b : BVal)
  | idivV (a b : BVal)
  | matmulV (a b : BVal)
  deriving DecidableEq, Repr

/-- A numpy `ndarray`: dtype, shape, opaque contents. -/
structure Buf where
  dtype : DType
  shape : List Nat
  val : BVal
  deriving DecidableEq, Repr

/-- `np.array(data, dtype=np.float32)`: casts to float32, keeping the
data's intrinsic shape (contents pass through the free algebra). -/
def npArrayF32 (d : Buf) : Buf := { dtype := .f32, shape := d.shape, val := d.val }

/-- `np.zeros_like(b)`: zeros of `b`'s shape and dtype. -/
def npZerosLike (b : Buf) : Buf := { dtype := b.dtype, shape := b.shape, val := .zerosV }

/-- `np.ones(shape)` (numpy's default dtype, float64). -/
def npOnes (shape : List Nat) : Buf := { dtype := .f64, shape := shape, val := .onesV }

/-- dtype promotion for binary numpy ops producing a fresh result. -/
def DType.promote : DType → DType → DType
  | .f32, .f32 => .f32
  | _, _ => .f64

/-- Result shape of `a @ b`; modelled exactly for the 2-D × 2-D case the
engine's tensors use, left at the first operand's shape elsewhere. -/
def matShape : List Nat → List Nat → List Nat
  | [m, _k], [_k2, n] => [m, n]
  | s, _ => s

/-- In-place elementwise update `a op= b`: numpy writes into `a`'s
memory, so dtype and shape are `a`'s; contents recorded symbolically. -/
def Buf.ielem (bop : BVal → BVal → BVal) (a b : Buf) : Buf :=
  { dtype := a.dtype, shape := a.shape, val := bop a.val b.val }

/-- Fresh-result matrix product `a @ b`. -/
def Buf.matmul (a b : Buf) : Buf :=
  { dtype := a.dtype.promote b.dtype, shape := matShape a.shape b.shape,
    val := .matmulV a.val b.val }

/-- Python object identity for `Tensor`s (heap address). -/
abbrev TensorId := Nat

/-- An entry of `Context.parents`: `save_for_backward` may hold `Tensor`s
(by reference) or arbitrary other Python data (opaque here); only
`Tensor`-typed entries participate in the traversal. -/
inductive Parent where
  | tensor (id : TensorId)
  | plain (tag : Nat)
  deriving DecidableEq, Repr

/-- `class Context`: an operator instance, holding the operands saved by
`forward` (`self.parents = save_for_backward`). -/
structure Context where
  parents : List Parent
  deriving DecidableEq, Repr

/-- The `_ctx` slot of a `Tensor`.  Because `Tensor` declares
`__slots__`, `del tensor._ctx` leaves the slot in a state where reading
it raises `AttributeError` — distinct from holding `None`. -/
inductive CtxSlot where
  | del
  | noCtx
  | ctx (c : Context)
  deriving DecidableEq, Repr

/-- `class Tensor`: fields `data`, `grad`, `_ctx`, `requires_grad`,
`name` (the exact `__slots__`). -/
structure Tensor where
  data : Buf
  grad : Buf
  ctx : CtxSlot
  requires_grad : Bool
  name : String
  deriving DecidableEq, Repr

/-- `Tensor.__init__(self, data, requires_grad=False, context=None,
name='')`: `self.data = np.array(data, dtype=np.float32)`,
`self.grad = np.zeros_like(self.data)`, `self._ctx = context`. -/
def Tensor.init (data : Buf) (requires_grad : Bool := false)
    (context : Option Context := none) (name : String := "") : Tensor :=
  { data := npArrayF32 data
    grad := npZerosLike (npArrayF32 data)
    ctx := match context with
           | none => .noCtx
           | some c => .ctx c
    requires_grad := requires_grad
    name := name }

/-- `Tensor.shape` property: `self.data.shape`. -/
def Tensor.shape (t : Tensor) : List Nat := t.data.shape

/-! ## Creation helpers (leaf factories) -/

/-- `Tensor.zeros(*shape, **kwargs)` = `cls(np.zeros(shape, dtype=np.float32), **kwargs)`. -/
def Tensor.zeros (shape : List Nat) (requires_grad : Bool := false) : Tensor :=
  Tensor.init ⟨.f32, shape, .zerosV⟩ requires_grad

/-- `Tensor.ones(*shape, **kwargs)` = `cls(np.ones(shape, dtype=np.float32), **kwargs)`. -/
def Tensor.ones (shape : List Nat) (requires_grad : Bool := false) : Tensor :=
  Tensor.init ⟨.f32, shape, .onesV⟩ requires_grad

/-- `Tensor.empty(*shape, **kwargs)` = `cls(np.empty(shape, dtype=np.float32), **kwargs)`. -/
def Tensor.empty (shape : List Nat) (requires_grad : Bool := false) : Tensor :=
  Tensor.init ⟨.f32, shape, .emptyV⟩ requires_grad

/-- `Tensor.eye(dim, **kwargs)` = `cls(np.eye(dim, dtype=np.float32), **kwargs)`. -/
def Tensor.eye (dim : Nat) (requires_grad : Bool := false) : Tensor :=
  Tensor.init ⟨.f32, [dim, dim], .eyeV⟩ requires_grad

/-- `Tensor.arange(stop, start=0, **kwargs)` =
`cls(np.arange(start=start, stop=stop, dtype=np.float32), **kwargs)`;
the resulting 1-D length is `stop - start` (0 when `start ≥ stop`). -/
def Tensor.arange (stop : Nat) (start : Nat := 0) (requires_grad : Bool := false) : Tensor :=
  Tensor.init ⟨.f32, [stop - start], .arangeV start stop⟩ requires_grad

/-- `Tensor.randn(*shape, **kwargs)`: a float32 standard-normal draw
(`rng` tags the nondeterministic draw). -/
def Tensor.randn (shape : List Nat) (rng : Nat) (requires_grad : Bool := false) : Tensor :=
  Tensor.init ⟨.f32, shape, .randnV rng⟩ requires_grad

/-- `Tensor.uniform(*shape, **kwargs)`: `rng.random(shape, float32)*2-1`,
elementwise float32 arithmetic on a float32 draw (`rng` tags the draw). -/
def Tensor.uniform (shape : List Nat) (rng : Nat) (requires_grad : Bool := false) : Tensor :=
  Tensor.init ⟨.f32, shape, .uniformV rng⟩ requires_grad

/-- `Tensor.zeros_like(tensor, **kwargs)` = `cls.zeros(*tensor.shape, **kwargs)`. -/
def Tensor.zeros_like (t : Tensor) (requires_grad : Bool := false) : Tensor :=
  Tensor.zeros t.shape requires_grad

/-- `Tensor.ones_like(tensor, **kwargs)` = `cls(np.ones(tensor.shape, dtype=np.float32), **kwargs)`. -/
def Tensor.ones_like (t : Tensor) (requires_grad : Bool := false) : Tensor :=
  Tensor.init ⟨.f32, t.shape, .onesV⟩ requires_grad

/-! ## In-place operators -/

/-- A Python value appearing as the other operand of an in-place
operator or as an argument of `Tensor.comm`: a `Tensor` object or raw
(array-like) data. -/
inductive Operand where
  | tens (t : Tensor)
  | raw (b : Buf)
  deriving DecidableEq, Repr

/-- `x.data if isinstance(x, Tensor) else x`. -/
def Operand.dataOf : Operand → Buf
  | .tens t => t.data
  | .raw b => b

/-- `__iadd__`: `self.data += x.data if isinstance(x, Tensor) else x`. -/
def Tensor.iadd (self : Tensor) (x : Operand) : Tensor :=
  { self with data := Buf.ielem .iaddV self.data x.dataOf }

/-- `__isub__`: `self.data -= x.data if isinstance(x, Tensor) else x`. -/
def Tensor.isub (self : Tensor) (x : Operand) : Tensor :=
  { self with data := Buf.ielem .isubV self.data x.dataOf }

/-- `__imul__`: `self.data *= x.data if isinstance(x, Tensor) else x`. -/
def Tensor.imul (self : Tensor) (x : Operand) : Tensor :=
  { self with data := Buf.ielem .imulV self.data x.dataOf }

/-- `__ipow__`: `self.data **= x.data if isinstance(x, Tensor) else x`. -/
def Tensor.ipow (self : Tensor) (x : Operand) : Tensor :=
  { self with data := Buf.ielem .ipowV self.data x.dataOf }

/-- `__itruediv__`: `self.data /= x.data if isinstance(x, Tensor) else x`. -/
def Tensor.idiv (self : Tensor) (x : Operand) : Tensor :=
  { self with data := Buf.ielem .idivV self.data x.dataOf }

/-- `__imatmul__`: `self.data = self.data @ x.data if isinstance(x, Tensor) else x`.
By Python operator precedence the conditional expression is the whole
right-hand side, so for a non-`Tensor` operand `x` itself is assigned
to `self.data` (no product is formed). -/
def Tensor.imatmul (self : Tensor) (x : Operand) : Tensor :=
  match x with
  | .tens t => { self with data := Buf.matmul self.data t.data }
  | .raw b => { self with data := b }

/-! ## `Tensor.comm` (generic operator application) -/

/-- The operand coercion inside `Tensor.comm`:
`t if isinstance(t, Tensor) else Tensor(t)`. -/
def coerceOperand : Operand → Tensor
  | .tens t => t
  | .raw d => Tensor.init d

/-- `Tensor.comm(operator, *tensors, **kwargs)`: coerce raw operands to
leaf `Tensor`s, call the operator's `forward` (external kernel, passed
as `fwd`), wrap the result: `cls(data, requires_grad=True, context=context)`. -/
def Tensor.comm (fwd : List Tensor → Buf × Context) (tensors : List Operand) : Tensor :=
  let operands := tensors.map coerceOperand
  let res := fwd operands
  Tensor.init res.1 true (some res.2)

/-! ## The heap and the backward engine -/

/-- The Python heap, restricted to `Tensor` objects: index = identity. -/
abbrev Store := List Tensor

/-- Dereference a `Tensor` object. -/
def lookupT (s : Store) (id : TensorId) : Option Tensor := s.get? id

/-- Overwrite a `Tensor` object in place. -/
def updateT (s : Store) (id : TensorId) (t : Tensor) : Store := s.set id t

/-- The `Tensor`-typed entries of a context's `parents`. -/
def Context.tensorParents (c : Context) : List TensorId :=
  c.parents.filterMap fun p => match p with
    | .tensor i => some i
    | .plain _ => none

/-- Python runtime errors the engine can raise. -/
inductive PyErr where
  | attributeError   -- reading a deleted `_ctx` slot
  | noneBackward     -- `None.backward(...)` on a `_ctx` that is `None`
  | missingTensor    -- dangling id (cannot occur for a well-formed heap)
  deriving DecidableEq, Repr

/-- The local state of `Tensor.backward`'s closure: the `topo` list and
the identity-keyed `visited` set. -/
structure TopoState where
  topo : List TensorId
  visited : List TensorId
  deriving DecidableEq, Repr

/-- `set.add`: identity-keyed insertion. -/
def addVisited (id : TensorId) (s : List TensorId) : List TensorId :=
  if id ∈ s then s else id :: s

/-- Outcome of `build_topo`: fuel ran out, a Python error, or the
updated closure state. -/
inductive TRes where
  | out
  | err (e : PyErr)
  | ok (st : TopoState)
  deriving DecidableEq, Repr

/-- The `for t in context.parents` loop of `build_topo`; `recur` is the
recursive `build_topo` call (at one less fuel). -/
def topoParents (recur : TensorId → TopoState → TRes) (selfId : TensorId) :
    List Parent → TopoState → TRes
  | [], st => .ok st
  | p :: ps, st =>
    match p with
    | .plain _ => topoParents recur selfId ps st
    | .tensor tid =>
      if tid ∈ st.visited then topoParents recur selfId ps st
      else
        match recur tid { st with visited := addVisited selfId st.visited } with
        | .ok st' => topoParents recur selfId ps st'
        | r => r

/-- `build_topo(tensor)` of `Tensor.backward`:

```python
def build_topo(tensor):
    if (context := tensor._ctx):
        for t in context.parents:
            # _ctx may save other unhashable types of data
            if isinstance(t, Tensor) and t not in visited:
                visited.add(tensor)        # NB: adds the child, not t
                build_topo(t)
        topo.append(tensor)
```

The recursion is bounded by `fuel` (the Python original recurses on the
acyclic creator graph). -/
def buildTopo (store : Store) : Nat → TensorId → TopoState → TRes
  | 0, _, _ => .out
  | fuel + 1, id, st =>
    match lookupT store id with
    | none => .err .missingTensor
    | some t =>
      match t.ctx with
      | .del => .err .attributeError
      | .noCtx => .ok st
      | .ctx c =>
        match topoParents (fun i s => buildTopo store fuel i s) id c.parents st with
        | .ok st' => .ok { st' with topo := st'.topo ++ [id] }
        | r => r

/-- Result of a `backward()` call: the heap afterwards, the error that
aborted it (if any), and the sequence of `creator.backward` invocations
(ids of the owning `Tensor`s, in invocation order). -/
structure BOut where
  store : Store
  error : Option PyErr
  calls : List TensorId
  deriving Repr

/-- The chain-rule loop of `Tensor.backward`:

```python
for tensor in reversed(topo):
    tensor._ctx.backward(tensor.grad)
    if not debug:
        del tensor._ctx   # free memory
```

`opB` is the external operator kernel `context.backward` (it mutates
parent `Tensor`s' `grad` buffers on the heap). -/
def backwardLoop (opB : Context → Buf → Store → Store) (debug : Bool) :
    List TensorId → Store → List TensorId → BOut
  | [], store, calls => ⟨store, none, calls⟩
  | id :: rest, store, calls =>
    match lookupT store id with
    | none => ⟨store, some .missingTensor, calls⟩
    | some t =>
      match t.ctx with
      | .del => ⟨store, some .attributeError, calls⟩
      | .noCtx => ⟨store, some .noneBackward, calls⟩
      | .ctx c =>
        let store1 := opB c t.grad store
        let store2 :=
          if debug then store1
          else
            match lookupT store1 id with
            | some t1 => updateT store1 id { t1 with ctx := .del }
            | none => store1
        backwardLoop opB debug rest store2 (calls ++ [id])

/-- `Tensor.backward(self, debug=False)`: topological sort from the
root, seed `self.grad = np.ones(self.shape)`, then run the chain-rule
loop on the reversed `topo` list. -/
def Tensor.backward (opB : Context → Buf → Store → Store) (fuel : Nat)
    (store : Store) (rootId : TensorId) (debug : Bool := false) : BOut :=
  match buildTopo store fuel rootId ⟨[], []⟩ with
  | .out => ⟨store, none, []⟩   -- fuel artefact; theorems supply enough fuel
  | .err e => ⟨store, some e, []⟩
  | .ok st =>
    match lookupT store rootId with
    | none => ⟨store, some .missingTensor, []⟩
    | some rt =>
      let store1 := updateT store rootId { rt with grad := npOnes rt.data.shape }
      backwardLoop opB debug st.topo.reverse store1 []

/-- `consumes s i j`: the `Tensor` object `i` has `Tensor` `j` among the
parents saved by its creator, i.e. `i` consumes `j`'s value. -/
def consumes (s : Store) (consumer consumed : TensorId) : Bool :=
  match lookupT s consumer with
  | some t =>
    match t.ctx with
    | .ctx c => consumed ∈ c.tensorParents
    | _ => false
  | none => false

/-! ## Concrete graphs

`mkT` builds a scalar tensor object with a given `_ctx` slot; the
numeric contents are irrelevant to the traversal claims. -/

/-- A scalar tensor with the given `_ctx` slot. -/
def mkT (slot : CtxSlot) : Tensor :=
  ⟨⟨.f32, [], .rawV 0⟩, ⟨.f32, [], .zerosV⟩, slot, false, ""⟩

/-- A trivial (no-op) operator-backward kernel. -/
def trivOpB : Context → Buf → Store → Store := fun _ _ s => s

/-- Expression graph `l; k = f(l); m = g(k); n = h(k); u = f(n);
v = g(n); c1 = m ⊕ u; root = c1 ⊕ v` — a shared non-leaf
sub-expression `n` whose second expansion happens after its shared
ancestor `k` is already in `visited`. Ids: l=0, k=1, m=2, n=3, u=4,
v=5, c1=6, root=7. -/
def storeCon : Store :=
  [ mkT .noCtx,
    mkT (.ctx ⟨[.tensor 0]⟩),
    mkT (.ctx ⟨[.tensor 1]⟩),
    mkT (.ctx ⟨[.tensor 1]⟩),
    mkT (.ctx ⟨[.tensor 3]⟩),
    mkT (.ctx ⟨[.tensor 3]⟩),
    mkT (.ctx ⟨[.tensor 2, .tensor 4]⟩),
    mkT (.ctx ⟨[.tensor 6, .tensor 5]⟩) ]

/-- Expression graph `l; k = f(l); m = g(k); n = h(k); d = n ⊕ n;
root = m ⊕ d`. Ids: l=0, k=1, m=2, n=3, d=4, root=5. -/
def storeDup : Store :=
  [ mkT .noCtx,
    mkT (.ctx ⟨[.tensor 0]⟩),
    mkT (.ctx ⟨[.tensor 1]⟩),
    mkT (.ctx ⟨[.tensor 1]⟩),
    mkT (.ctx ⟨[.tensor 3, .tensor 3]⟩),
    mkT (.ctx ⟨[.tensor 2, .tensor 4]⟩) ]

/-! ## C1 / C2: the traversal order -/

/-- **C1** (code bug, evaluation at the failing input): on `storeCon`,
tensor 4 consumes tensor 3, yet the backward pass invokes tensor 3's
`creator.backward` (first invocation, position 2 of the call sequence)
before tensor 4's (position 4) — so 3's `grad` had not yet received its
consumer 4's contribution.  With the default `debug=False` the same
pass aborts with `AttributeError`.  The claim "no Node is processed
before all of its consumers" is false of the code. -/
theorem c1_processed_before_consumer :
    (Tensor.backward trivOpB 20 storeCon 7 true).calls = [7, 5, 3, 6, 4, 3, 2, 1] ∧
    consumes storeCon 4 3 = true ∧
    List.indexOf 3 (Tensor.backward trivOpB 20 storeCon 7 true).calls <
      List.indexOf 4 (Tensor.backward trivOpB 20 storeCon 7 true).calls ∧
    (Tensor.backward trivOpB 20 storeCon 7).error = some .attributeError := by
  decide

/-- **C2** (code bug, evaluation at the failing input): on `storeDup`
(where `d = n ⊕ n` and `n`'s shared ancestor `k` is visited first),
tensor 3's operator instance has its `backward` invoked **twice** in a
single `backward()` pass when `debug=True`; with the default
`debug=False` the pass deletes `_ctx` after the first invocation and
then aborts with `AttributeError` at the second.  The claim "exactly
once" is false of the code. -/
theorem c2_backward_invoked_twice :
    ((Tensor.backward trivOpB 20 storeDup 5 true).calls.count 3) = 2 ∧
    ((Tensor.backward trivOpB 20 storeDup 5).calls.count 3) = 1 ∧
    (Tensor.backward trivOpB 20 storeDup 5).error = some .attributeError := by
  decide

/-! ## C3 / C10: in-place operators -/

/-- The differentiation-relevant state of a `Tensor` object: everything
except its `data` buffer. -/
def autodiffFrame (a b : Tensor) : Prop :=
  a.grad = b.grad ∧ a.ctx = b.ctx ∧ a.requires_grad = b.requires_grad ∧ a.name = b.name

/-- **C3**: every in-place operator (`+=`, `-=`, `*=`, `**=`, `/=`,
`@=`) reassigns only `self.data`; the `grad` buffer, the `_ctx` slot
(hence: no new graph edge and no new operator instance), the
`requires_grad` flag and the `name` are all unchanged, for `Tensor` and
non-`Tensor` right operands alike.  (The operand `x` is only read —
in the embedding the operators are functions of `self` alone.) -/
theorem c3_inplace_only_mutates_value (self : Tensor) (x : Operand) :
    autodiffFrame (self.iadd x) self ∧
    autodiffFrame (self.isub x) self ∧
    autodiffFrame (self.imul x) self ∧
    autodiffFrame (self.ipow x) self ∧
    autodiffFrame (self.idiv x) self ∧
    autodiffFrame (self.imatmul x) self := by
  cases x <;>
    exact ⟨⟨rfl, rfl, rfl, rfl⟩, ⟨rfl, rfl, rfl, rfl⟩, ⟨rfl, rfl, rfl, rfl⟩,
      ⟨rfl, rfl, rfl, rfl⟩, ⟨rfl, rfl, rfl, rfl⟩, ⟨rfl, rfl, rfl, rfl⟩⟩

/-- **C10**: `a @= x` with a `Tensor` operand stores the matrix product
of the two `data` buffers, but with a non-`Tensor` operand it stores
`x` itself (the conditional expression is the whole right-hand side of
the assignment and no product is formed); in both cases `grad` and the
`_ctx` slot are unchanged. -/
theorem c10_imatmul_branches (self t : Tensor) (b : Buf) :
    (self.imatmul (.tens t)).data = Buf.matmul self.data t.data ∧
    (self.imatmul (.raw b)).data = b ∧
    (∀ x : Operand, (self.imatmul x).grad = self.grad ∧ (self.imatmul x).ctx = self.ctx) := by
  refine ⟨rfl, rfl, fun x => ?_⟩
  cases x <;> exact ⟨rfl, rfl⟩

/-! ## C8: leaf construction -/

/-- What the spec calls a freshly built leaf: no creator, float32
value, all-zeros gradient of the value's shape. -/
def isFreshLeaf (t : Tensor) : Prop :=
  t.ctx = .noCtx ∧ t.data.dtype = .f32 ∧
  t.grad = ⟨.f32, t.data.shape, .zerosV⟩

/-- **C8**: `Tensor(data)` and the factory constructors
(`zeros`/`ones`/`empty`/`eye`/`arange`/`randn`/`uniform`) build leaf
tensors: `_ctx = None`, `data` cast to float32, `grad` all zeros of the
value's shape, and `requires_grad` defaulting to `False` but
overridable. -/
theorem c8_leaf_construction (d : Buf) (shape : List Nat) (dim stop start rng : Nat) :
    (isFreshLeaf (Tensor.init d) ∧ (Tensor.init d).requires_grad = false ∧
      (Tensor.init d).data.shape = d.shape) ∧
    (isFreshLeaf (Tensor.zeros shape) ∧ (Tensor.zeros shape).requires_grad = false ∧
      (Tensor.zeros shape).data.shape = shape) ∧
    (isFreshLeaf (Tensor.ones shape) ∧ (Tensor.ones shape).requires_grad = false) ∧
    (isFreshLeaf (Tensor.empty shape) ∧ (Tensor.empty shape).requires_grad = false) ∧
    (isFreshLeaf (Tensor.eye dim) ∧ (Tensor.eye dim).requires_grad = false) ∧
    (isFreshLeaf (Tensor.arange stop start) ∧
      (Tensor.arange stop start).requires_grad = false) ∧
    (isFreshLeaf (Tensor.randn shape rng) ∧ (Tensor.randn shape rng).requires_grad = false) ∧
    (isFreshLeaf (Tensor.uniform shape rng) ∧
      (Tensor.uniform shape rng).requires_grad = false) ∧
    (Tensor.zeros shape true).requires_grad = true ∧
    (Tensor.init d true).requires_grad = true := by
  exact ⟨⟨⟨rfl, rfl, rfl⟩, rfl, rfl⟩, ⟨⟨rfl, rfl, rfl⟩, rfl, rfl⟩, ⟨⟨rfl, rfl, rfl⟩, rfl⟩,
    ⟨⟨rfl, rfl, rfl⟩, rfl⟩, ⟨⟨rfl, rfl, rfl⟩, rfl⟩, ⟨⟨rfl, rfl, rfl⟩, rfl⟩,
    ⟨⟨rfl, rfl, rfl⟩, rfl⟩, ⟨⟨rfl, rfl, rfl⟩, rfl⟩, rfl, rfl⟩

/-! ## C5: `Tensor.comm` -/

/-- **C5**: `Tensor.comm` coerces every non-`Tensor` operand into a
fresh leaf (`Tensor(t)`: no creator, zero grad, `requires_grad=False`),
leaves `Tensor` operands alone, invokes the operator's `forward` on the
coerced list, and wraps the returned buffer in a tensor whose `_ctx` is
the returned operator instance and whose `requires_grad` is
unconditionally `True`. -/
theorem c5_comm_wraps_forward (fwd : List Tensor → Buf × Context) (args : List Operand) :
    (∀ d : Buf, coerceOperand (.raw d) = Tensor.init d ∧
      isFreshLeaf (coerceOperand (.raw d)) ∧
      (coerceOperand (.raw d)).requires_grad = false) ∧
    (∀ t : Tensor, coerceOperand (.tens t) = t) ∧
    (Tensor.comm fwd args).ctx = .ctx (fwd (args.map coerceOperand)).2 ∧
    (Tensor.comm fwd args).requires_grad = true ∧
    (Tensor.comm fwd args).data = npArrayF32 (fwd (args.map coerceOperand)).1 ∧
    (Tensor.comm fwd args).grad =
      npZerosLike (npArrayF32 (fwd (args.map coerceOperand)).1) := by
  exact ⟨fun d => ⟨rfl, ⟨rfl, rfl, rfl⟩, rfl⟩, fun t => rfl, rfl, rfl, rfl, rfl⟩

/-! ## C4: the grad-matches-value shape invariant -/

/-- The claimed invariant: the `grad` buffer has the `data` buffer's
shape. -/
def gradMatchesValue (t : Tensor) : Prop := t.grad.shape = t.data.shape

instance (t : Tensor) : Decidable (gradMatchesValue t) := by
  unfold gradMatchesValue; infer_instance

/-- A 1-D tensor of 2 elements. -/
def tVec2 : Tensor := Tensor.init ⟨.f64, [2], .rawV 0⟩

/-- Raw (non-`Tensor`) array data of 5 elements. -/
def rawVec5 : Operand := .raw ⟨.f64, [5], .rawV 1⟩

/-- **C4, counterexample**: the invariant "grad has the same shape as
value" is *not* preserved by the in-place operation `@=`: for a 2-vector
tensor `a` and raw 5-vector data `x`, `a @= x` leaves `a.value` with
shape `[5]` while `a.grad` keeps shape `[2]`. -/
theorem c4_counterexample_imatmul :
    gradMatchesValue tVec2 ∧
    ¬ gradMatchesValue (tVec2.imatmul rawVec5) ∧
    (tVec2.imatmul rawVec5).data.shape = [5] ∧
    (tVec2.imatmul rawVec5).grad.shape = [2] := by
  decide

/-! ## Heap lemmas and the operator-kernel contract -/

theorem lookupT_updateT (s : Store) (i : TensorId) (t : Tensor) :
    ∀ j, lookupT (updateT s i t) j =
      if i = j then (lookupT s j).map (fun _ => t) else lookupT s j := by
  induction s generalizing i with
  | nil => intro j; simp [lookupT, updateT]
  | cons a l ih =>
    intro j
    cases i with
    | zero => cases j <;> simp [lookupT, updateT, List.get?]
    | succ n =>
      cases j with
      | zero => simp [lookupT, updateT, List.get?]
      | succ m =>
        have := ih n m
        simp only [lookupT, updateT, List.set, List.get?] at this ⊢
        rw [this]
        by_cases h : n = m <;> simp [h]

/-- The §4.1 contract of an external operator kernel's `backward`: it
routes gradient into its parents' `grad` buffers and touches nothing
else on the heap — every object survives, `data`, `_ctx`,
`requires_grad`, `name` are unchanged everywhere, and `grad` is
unchanged outside `c.parents`'s `Tensor` entries. -/
def KFrame (opB : Context → Buf → Store → Store) : Prop :=
  ∀ c g s id,
    (lookupT s id = none ↔ lookupT (opB c g s) id = none) ∧
    ∀ t t', lookupT s id = some t → lookupT (opB c g s) id = some t' →
      t'.data = t.data ∧ t'.ctx = t.ctx ∧ t'.requires_grad = t.requires_grad ∧
      t'.name = t.name ∧ (id ∉ c.tensorParents → t'.grad = t.grad)

theorem KFrame.some_of_some {opB : Context → Buf → Store → Store} (h : KFrame opB)
    {c : Context} {g : Buf} {s : Store} {id : TensorId} {t : Tensor}
    (ht : lookupT s id = some t) :
    ∃ t', lookupT (opB c g s) id = some t' ∧ t'.data = t.data ∧ t'.ctx = t.ctx ∧
      t'.requires_grad = t.requires_grad ∧ t'.name = t.name ∧
      (id ∉ c.tensorParents → t'.grad = t.grad) := by
  obtain ⟨hn, hs⟩ := h c g s id
  cases he : lookupT (opB c g s) id with
  | none => rw [hn.mpr he] at ht; cases ht
  | some t' => exact ⟨t', rfl, hs t t' ht he⟩

/-- The trivial kernel satisfies the contract. -/
theorem trivOpB_frame : KFrame trivOpB := by
  intro c g s id
  refine ⟨Iff.rfl, fun t t' ht ht' => ?_⟩
  simp only [trivOpB] at ht'
  rw [ht] at ht'
  cases ht'
  exact ⟨rfl, rfl, rfl, rfl, fun _ => rfl⟩

/-- During the backward loop the heap stays aligned with the heap `s₀`
it started from: the same objects exist, and each object's `_ctx` slot
is either its original value or has been deleted. -/
def CtxApprox (s₀ s : Store) : Prop :=
  (∀ id, lookupT s₀ id = none ↔ lookupT s id = none) ∧
  ∀ id t t', lookupT s₀ id = some t → lookupT s id = some t' →
    t'.ctx = t.ctx ∨ t'.ctx = .del

theorem ctxApprox_refl (s : Store) : CtxApprox s s :=
  ⟨fun _ => Iff.rfl, fun _ t t' h h' => by rw [h] at h'; cases h'; exact Or.inl rfl⟩

theorem ctxApprox_some_of_some {s₀ s : Store} (h : CtxApprox s₀ s) {id : TensorId}
    {t' : Tensor} (ht' : lookupT s id = some t') :
    ∃ t, lookupT s₀ id = some t ∧ (t'.ctx = t.ctx ∨ t'.ctx = .del) := by
  cases he : lookupT s₀ id with
  | none => rw [(h.1 id).mp he] at ht'; cases ht'
  | some t => exact ⟨t, rfl, h.2 id t t' he ht'⟩

theorem ctxApprox_opB {opB : Context → Buf → Store → Store} (hf : KFrame opB)
    {s₀ s : Store} (h : CtxApprox s₀ s) (c : Context) (g : Buf) :
    CtxApprox s₀ (opB c g s) := by
  constructor
  · intro id
    exact (h.1 id).trans (hf c g s id).1
  · intro id t t' h0 h'
    cases hm : lookupT s id with
    | none => rw [((hf c g s id).1).mp hm] at h'; cases h'
    | some tm =>
      have hmid := h.2 id t tm h0 hm
      have hctx := ((hf c g s id).2 tm t' hm h').2.1
      rw [hctx]
      exact hmid

theorem ctxApprox_updateT {s₀ s : Store} (h : CtxApprox s₀ s) {id : TensorId}
    {t t' : Tensor} (ht : lookupT s id = some t)
    (hc : t'.ctx = t.ctx ∨ t'.ctx = .del) :
    CtxApprox s₀ (updateT s id t') := by
  constructor
  · intro j
    rw [lookupT_updateT s id t' j]
    by_cases hj : id = j
    · subst hj
      rw [if_pos rfl, ht]
      simp only [Option.map_some']
      constructor
      · intro he
        rw [(h.1 id).mp he] at ht
        cases ht
      · intro he
        cases he
    · rw [if_neg hj]; exact h.1 j
  · intro j t₀ t₁ h0 h1
    rw [lookupT_updateT s id t' j] at h1
    by_cases hj : id = j
    · subst hj
      rw [if_pos rfl, ht] at h1
      cases h1
      rcases hc with hc | hc
      · rw [hc]
        exact h.2 id t₀ t h0 ht
      · exact Or.inr hc
    · rw [if_neg hj] at h1
      exact h.2 j t₀ t₁ h0 h1

/-! Unfolding equations for `backwardLoop`. -/

theorem backwardLoop_nil (opB : Context → Buf → Store → Store) (debug : Bool)
    (s : Store) (calls : List TensorId) :
    backwardLoop opB debug [] s calls = ⟨s, none, calls⟩ := rfl

theorem backwardLoop_cons_none {opB : Context → Buf → Store → Store} {debug : Bool}
    {id : TensorId} {rest : List TensorId} {s : Store} {calls : List TensorId}
    (h : lookupT s id = none) :
    backwardLoop opB debug (id :: rest) s calls = ⟨s, some .missingTensor, calls⟩ := by
  simp only [backwardLoop, h]

theorem backwardLoop_cons_del {opB : Context → Buf → Store → Store} {debug : Bool}
    {id : TensorId} {rest : List TensorId} {s : Store} {calls : List TensorId} {t : Tensor}
    (h : lookupT s id = some t) (hc : t.ctx = .del) :
    backwardLoop opB debug (id :: rest) s calls = ⟨s, some .attributeError, calls⟩ := by
  simp only [backwardLoop, h, hc]

theorem backwardLoop_cons_noCtx {opB : Context → Buf → Store → Store} {debug : Bool}
    {id : TensorId} {rest : List TensorId} {s : Store} {calls : List TensorId} {t : Tensor}
    (h : lookupT s id = some t) (hc : t.ctx = .noCtx) :
    backwardLoop opB debug (id :: rest) s calls = ⟨s, some .noneBackward, calls⟩ := by
  simp only [backwardLoop, h, hc]

theorem backwardLoop_cons_ctx {opB : Context → Buf → Store → Store} {debug : Bool}
    {id : TensorId} {rest : List TensorId} {s : Store} {calls : List TensorId}
    {t : Tensor} {c : Context} (h : lookupT s id = some t) (hc : t.ctx = .ctx c) :
    backwardLoop opB debug (id :: rest) s calls =
      backwardLoop opB debug rest
        (if debug then opB c t.grad s
         else
           match lookupT (opB c t.grad s) id with
           | some t1 => updateT (opB c t.grad s) id { t1 with ctx := .del }
           | none => opB c t.grad s)
        (calls ++ [id]) := by
  simp only [backwardLoop, h, hc]

/-- If the kernels respect their contract, every object `root` that no
traversed context lists among its parents keeps its `grad` and `data`
through the chain-rule loop (only its `_ctx` may be torn down). -/
theorem backwardLoop_preserves_root {opB : Context → Buf → Store → Store}
    (hf : KFrame opB) (debug : Bool) (s₀ : Store) (root : TensorId)
    (hnc : ∀ id t c, lookupT s₀ id = some t → t.ctx = .ctx c → root ∉ c.tensorParents) :
    ∀ (ids : List TensorId) (s : Store) (calls : List TensorId) (rt : Tensor),
      CtxApprox s₀ s → lookupT s root = some rt →
      ∃ rt', lookupT (backwardLoop opB debug ids s calls).store root = some rt' ∧
        rt'.grad = rt.grad ∧ rt'.data = rt.data := by
  intro ids
  induction ids with
  | nil =>
    intro s calls rt _ hroot
    rw [backwardLoop_nil]
    exact ⟨rt, hroot, rfl, rfl⟩
  | cons id rest ih =>
    intro s calls rt hap hroot
    cases hid : lookupT s id with
    | none =>
      rw [backwardLoop_cons_none hid]
      exact ⟨rt, hroot, rfl, rfl⟩
    | some t =>
      cases hct : t.ctx with
      | del =>
        rw [backwardLoop_cons_del hid hct]
        exact ⟨rt, hroot, rfl, rfl⟩
      | noCtx =>
        rw [backwardLoop_cons_noCtx hid hct]
        exact ⟨rt, hroot, rfl, rfl⟩
      | ctx c =>
        rw [backwardLoop_cons_ctx hid hct]
        obtain ⟨t₀, h₀, hor⟩ := ctxApprox_some_of_some hap hid
        have hc0 : t₀.ctx = .ctx c := by
          rcases hor with h | h
          · rw [← h, hct]
          · rw [hct] at h; cases h
        have hnotin : root ∉ c.tensorParents := hnc id t₀ c h₀ hc0
        have hap1 : CtxApprox s₀ (opB c t.grad s) := ctxApprox_opB hf hap c t.grad
        obtain ⟨rt1, hrt1, hd1, _, _, _, hg1⟩ := hf.some_of_some (c := c) (g := t.grad) hroot
        have hg1' : rt1.grad = rt.grad := hg1 hnotin
        cases debug with
        | true =>
          rw [if_pos rfl]
          obtain ⟨rt', h1, h2, h3⟩ := ih _ (calls ++ [id]) rt1 hap1 hrt1
          exact ⟨rt', h1, by rw [h2, hg1'], by rw [h3, hd1]⟩
        | false =>
          rw [if_neg (by decide)]
          cases hid1 : lookupT (opB c t.grad s) id with
          | none =>
            obtain ⟨t1, ht1, _⟩ := hf.some_of_some (c := c) (g := t.grad) hid
            rw [ht1] at hid1; cases hid1
          | some t1 =>
            have hap2 : CtxApprox s₀ (updateT (opB c t.grad s) id { t1 with ctx := .del }) :=
              ctxApprox_updateT hap1 hid1 (Or.inr rfl)
            have hroot2 : ∃ rt2,
                lookupT (updateT (opB c t.grad s) id { t1 with ctx := .del }) root = some rt2 ∧
                rt2.grad = rt1.grad ∧ rt2.data = rt1.data := by
              rw [lookupT_updateT]
              by_cases hj : id = root
              · subst hj
                rw [if_pos rfl, hrt1]
                have ht1rt1 : t1 = rt1 := by rw [hid1] at hrt1; cases hrt1; rfl
                subst ht1rt1
                exact ⟨_, rfl, rfl, rfl⟩
              · rw [if_neg hj]
                exact ⟨rt1, hrt1, rfl, rfl⟩
            obtain ⟨rt2, hrt2, hg2, hd2⟩ := hroot2
            obtain ⟨rt', h1, h2, h3⟩ := ih _ (calls ++ [id]) rt2 hap2 hrt2
            exact ⟨rt', h1, by rw [h2, hg2, hg1'], by rw [h3, hd2, hd1]⟩

/-- **C6**: a `backward()` call seeds the root's `grad` with
`np.ones(self.shape)` — all ones of exactly the value's shape —
overwriting the previous `grad`; the seed survives the chain-rule loop
(for contract-abiding kernels on a graph in which nothing consumes the
root, i.e. the root is the final output). -/
theorem c6_backward_seeds_root_grad_to_ones
    (opB : Context → Buf → Store → Store) (fuel : Nat) (debug : Bool)
    (store : Store) (root : TensorId) (rt : Tensor) (st : TopoState)
    (hf : KFrame opB)
    (hnc : ∀ id t c, lookupT store id = some t → t.ctx = .ctx c → root ∉ c.tensorParents)
    (hrt : lookupT store root = some rt)
    (htopo : buildTopo store fuel root ⟨[], []⟩ = .ok st) :
    ∃ rt', lookupT (Tensor.backward opB fuel store root debug).store root = some rt' ∧
      rt'.grad = npOnes rt.data.shape ∧ rt'.data = rt.data ∧
      rt'.grad.shape = rt'.data.shape := by
  have hseed : lookupT (updateT store root { rt with grad := npOnes rt.data.shape }) root
      = some { rt with grad := npOnes rt.data.shape } := by
    rw [lookupT_updateT, if_pos rfl, hrt]; rfl
  have hap : CtxApprox store (updateT store root { rt with grad := npOnes rt.data.shape }) :=
    ctxApprox_updateT (ctxApprox_refl store) hrt (Or.inl rfl)
  obtain ⟨rt', h1, h2, h3⟩ :=
    backwardLoop_preserves_root hf debug store root hnc st.topo.reverse _ [] _ hap hseed
  refine ⟨rt', ?_, by rw [h2], by rw [h3], by rw [h2, h3]; rfl⟩
  simp only [Tensor.backward, htopo, hrt]
  exact h1

/-- The chain-rule loop only appends to the call sequence. -/
theorem backwardLoop_calls_extend (opB : Context → Buf → Store → Store) (debug : Bool) :
    ∀ (ids : List TensorId) (s : Store) (calls : List TensorId),
      ∃ ext, (backwardLoop opB debug ids s calls).calls = calls ++ ext := by
  intro ids
  induction ids with
  | nil => intro s calls; exact ⟨[], by rw [backwardLoop_nil]; simp⟩
  | cons id rest ih =>
    intro s calls
    cases hid : lookupT s id with
    | none => exact ⟨[], by rw [backwardLoop_cons_none hid]; simp⟩
    | some t =>
      cases hct : t.ctx with
      | del => exact ⟨[], by rw [backwardLoop_cons_del hid hct]; simp⟩
      | noCtx => exact ⟨[], by rw [backwardLoop_cons_noCtx hid hct]; simp⟩
      | ctx c =>
        obtain ⟨ext, hext⟩ := ih
          (if debug then opB c t.grad s
           else
             match lookupT (opB c t.grad s) id with
             | some t1 => updateT (opB c t.grad s) id { t1 with ctx := .del }
             | none => opB c t.grad s)
          (calls ++ [id])
        refine ⟨id :: ext, ?_⟩
        rw [backwardLoop_cons_ctx hid hct, hext]
        simp

/-- With `debug=False` and contract-abiding kernels, every `Tensor`
whose `creator.backward` was invoked by the loop ends the loop with its
`_ctx` slot deleted. -/
theorem backwardLoop_calls_del {opB : Context → Buf → Store → Store} (hf : KFrame opB) :
    ∀ (ids : List TensorId) (s : Store) (calls : List TensorId),
      (∀ id ∈ calls, ∃ t, lookupT s id = some t ∧ t.ctx = .del) →
      ∀ id ∈ (backwardLoop opB false ids s calls).calls,
        ∃ t, lookupT (backwardLoop opB false ids s calls).store id = some t ∧
          t.ctx = .del := by
  intro ids
  induction ids with
  | nil =>
    intro s calls hprev
    rw [backwardLoop_nil]
    exact hprev
  | cons id rest ih =>
    intro s calls hprev
    cases hid : lookupT s id with
    | none => rw [backwardLoop_cons_none hid]; exact hprev
    | some t =>
      cases hct : t.ctx with
      | del => rw [backwardLoop_cons_del hid hct]; exact hprev
      | noCtx => rw [backwardLoop_cons_noCtx hid hct]; exact hprev
      | ctx c =>
        rw [backwardLoop_cons_ctx hid hct, if_neg (by decide)]
        cases hid1 : lookupT (opB c t.grad s) id with
        | none =>
          obtain ⟨t1, ht1, _⟩ := hf.some_of_some (c := c) (g := t.grad) hid
          rw [ht1] at hid1; cases hid1
        | some t1 =>
          apply ih
          intro j hj
          rcases List.mem_append.mp hj with hj | hj
          · obtain ⟨t₀, h₀, hd₀⟩ := hprev j hj
            obtain ⟨t₂, h₂, _, hc₂, _⟩ := hf.some_of_some (c := c) (g := t.grad) h₀
            rw [lookupT_updateT]
            by_cases he : id = j
            · subst he
              rw [if_pos rfl, h₂]
              exact ⟨_, rfl, rfl⟩
            · rw [if_neg he]
              exact ⟨t₂, h₂, by rw [hc₂, hd₀]⟩
          · have hj' : j = id := by simpa using hj
            subst hj'
            rw [lookupT_updateT, if_pos rfl, hid1]
            exact ⟨_, rfl, rfl⟩

/-- A successful `build_topo(root)` on a root that has a creator ends
its `topo` list with the root itself. -/
theorem buildTopo_last {store : Store} {fuel : Nat} {root : TensorId} {st₀ st : TopoState}
    {t : Tensor} {c : Context}
    (hrt : lookupT store root = some t) (hc : t.ctx = .ctx c)
    (h : buildTopo store fuel root st₀ = .ok st) :
    ∃ pre, st.topo = pre ++ [root] := by
  cases fuel with
  | zero => cases h
  | succ n =>
    simp only [buildTopo, hrt, hc] at h
    cases hres : topoParents (fun i s => buildTopo store n i s) root c.parents st₀ with
    | ok st' =>
      rw [hres] at h
      cases h
      exact ⟨st'.topo, rfl⟩
    | out => rw [hres] at h; cases h
    | err e => rw [hres] at h; cases h

/-- `backward()` on a root whose `_ctx` slot was deleted raises
`AttributeError` immediately (inside `build_topo`), changing nothing
and invoking no kernel. -/
theorem backward_on_deleted_ctx {opB : Context → Buf → Store → Store} {s2 : Store}
    {root : TensorId} {t : Tensor} (m : Nat) (debug : Bool)
    (h : lookupT s2 root = some t) (hd : t.ctx = .del) :
    Tensor.backward opB (m + 1) s2 root debug = ⟨s2, some .attributeError, []⟩ := by
  have hbt : buildTopo s2 (m + 1) root ⟨[], []⟩ = .err .attributeError := by
    simp only [buildTopo, h, hd]
  simp only [Tensor.backward, hbt]

/-- **C7**: after `backward()` with the `debug` flag unset, every
processed `Tensor`'s `_ctx` (creator) slot is deleted — in particular
the root's — and a subsequent `backward()` on the same root does not
silently succeed: it raises `AttributeError` at the very first `_ctx`
read inside `build_topo`, leaving the heap untouched and invoking no
kernel (no re-traversal). -/
theorem c7_teardown_and_second_backward_raises
    (opB : Context → Buf → Store → Store) (fuel : Nat) (store : Store)
    (root : TensorId) (rt : Tensor) (c : Context) (st : TopoState)
    (hf : KFrame opB)
    (hrt : lookupT store root = some rt)
    (hc : rt.ctx = .ctx c)
    (htopo : buildTopo store fuel root ⟨[], []⟩ = .ok st) :
    (∀ id ∈ (Tensor.backward opB fuel store root false).calls,
       ∃ t, lookupT (Tensor.backward opB fuel store root false).store id = some t ∧
         t.ctx = .del) ∧
    (∃ rt', lookupT (Tensor.backward opB fuel store root false).store root = some rt' ∧
       rt'.ctx = .del) ∧
    (∀ fuel2, 0 < fuel2 →
       Tensor.backward opB fuel2 (Tensor.backward opB fuel store root false).store root false
         = ⟨(Tensor.backward opB fuel store root false).store, some .attributeError, []⟩) := by
  have hseed : lookupT (updateT store root { rt with grad := npOnes rt.data.shape }) root
      = some { rt with grad := npOnes rt.data.shape } := by
    rw [lookupT_updateT, if_pos rfl, hrt]; rfl
  have hout : Tensor.backward opB fuel store root false =
      backwardLoop opB false st.topo.reverse
        (updateT store root { rt with grad := npOnes rt.data.shape }) [] := by
    simp only [Tensor.backward, htopo, hrt]
  have hdel : ∀ id ∈ (Tensor.backward opB fuel store root false).calls,
      ∃ t, lookupT (Tensor.backward opB fuel store root false).store id = some t ∧
        t.ctx = .del := by
    rw [hout]
    exact backwardLoop_calls_del hf st.topo.reverse _ [] (by intro j hj; cases hj)
  have hrootIn : root ∈ (Tensor.backward opB fuel store root false).calls := by
    obtain ⟨pre, hpre⟩ := buildTopo_last hrt hc htopo
    have hrev : st.topo.reverse = root :: pre.reverse := by
      rw [hpre]; simp
    rw [hout, hrev,
      backwardLoop_cons_ctx (t := { rt with grad := npOnes rt.data.shape }) hseed hc]
    obtain ⟨ext, hext⟩ := backwardLoop_calls_extend opB false pre.reverse _ ([] ++ [root])
    rw [hext]
    simp
  obtain ⟨rt', hrt', hcd'⟩ := hdel root hrootIn
  refine ⟨hdel, ⟨rt', hrt', hcd'⟩, ?_⟩
  intro fuel2 hf2
  obtain ⟨m, rfl⟩ : ∃ m, fuel2 = m + 1 := ⟨fuel2 - 1, by omega⟩
  exact backward_on_deleted_ctx m false hrt' hcd'

/-- **C9**: `backward()` on a leaf (`_ctx = None`) raises nothing: the
traversal finds no creator, `topo` stays empty, the leaf's `grad` is
set to `np.ones(self.shape)` and nothing else on the heap changes — no
invalid-graph-state error is signalled for a creator-less `Tensor`. -/
theorem c9_backward_on_leaf_succeeds
    (opB : Context → Buf → Store → Store) (fuel : Nat) (store : Store)
    (root : TensorId) (rt : Tensor) (debug : Bool)
    (hrt : lookupT store root = some rt)
    (hleaf : rt.ctx = .noCtx)
    (hfuel : 0 < fuel) :
    Tensor.backward opB fuel store root debug =
      ⟨updateT store root { rt with grad := npOnes rt.data.shape }, none, []⟩ ∧
    lookupT (Tensor.backward opB fuel store root debug).store root =
      some { rt with grad := npOnes rt.data.shape } := by
  obtain ⟨n, rfl⟩ : ∃ n, fuel = n + 1 := ⟨fuel - 1, by omega⟩
  have h1 : buildTopo store (n + 1) root ⟨[], []⟩ = .ok ⟨[], []⟩ := by
    simp only [buildTopo, hrt, hleaf]
  have h2 : Tensor.backward opB (n + 1) store root debug =
      ⟨updateT store root { rt with grad := npOnes rt.data.shape }, none, []⟩ := by
    simp only [Tensor.backward, h1, hrt]
    rw [show (⟨[], []⟩ : TopoState).topo.reverse = [] from rfl, backwardLoop_nil]
  refine ⟨h2, ?_⟩
  rw [h2]
  rw [lookupT_updateT, if_pos rfl, hrt]
  rfl

/-! ## C4 (amended): the grad-shape invariant store-wide -/

/-- Every `Tensor` object on the heap satisfies the grad-shape
invariant. -/
def InvStore (s : Store) : Prop :=
  ∀ id t, lookupT s id = some t → gradMatchesValue t

/-- The chain-rule loop preserves the store-wide invariant when the
kernels do (`_ctx` deletion does not touch `grad`/`data`). -/
theorem backwardLoop_inv {opB : Context → Buf → Store → Store}
    (hOp : ∀ c g s, InvStore s → InvStore (opB c g s)) (debug : Bool) :
    ∀ (ids : List TensorId) (s : Store) (calls : List TensorId),
      InvStore s → InvStore (backwardLoop opB debug ids s calls).store := by
  intro ids
  induction ids with
  | nil => intro s calls h; rw [backwardLoop_nil]; exact h
  | cons id rest ih =>
    intro s calls h
    cases hid : lookupT s id with
    | none => rw [backwardLoop_cons_none hid]; exact h
    | some t =>
      cases hct : t.ctx with
      | del => rw [backwardLoop_cons_del hid hct]; exact h
      | noCtx => rw [backwardLoop_cons_noCtx hid hct]; exact h
      | ctx c =>
        rw [backwardLoop_cons_ctx hid hct]
        have h1 : InvStore (opB c t.grad s) := hOp c t.grad s h
        cases debug with
        | true =>
          rw [if_pos rfl]
          exact ih _ _ h1
        | false =>
          rw [if_neg (by decide)]
          cases hid1 : lookupT (opB c t.grad s) id with
          | none => exact ih _ _ h1
          | some t1 =>
            apply ih
            intro j tj hj
            rw [lookupT_updateT] at hj
            by_cases he : id = j
            · subst he
              rw [if_pos rfl, hid1] at hj
              cases hj
              exact h1 id t1 hid1
            · rw [if_neg he] at hj
              exact h1 j tj hj

/-- `backward()` preserves the store-wide invariant for
contract-abiding kernels: the only engine-side `grad` write is the root
seed `np.ones(self.shape)`, which has the value's shape. -/
theorem backward_inv {opB : Context → Buf → Store → Store}
    (hOp : ∀ c g s, InvStore s → InvStore (opB c g s))
    (fuel : Nat) (store : Store) (root : TensorId) (debug : Bool)
    (h : InvStore store) :
    InvStore (Tensor.backward opB fuel store root debug).store := by
  unfold Tensor.backward
  cases hbt : buildTopo store fuel root ⟨[], []⟩ with
  | out => exact h
  | err e => exact h
  | ok st =>
    cases hrt : lookupT store root with
    | none => exact h
    | some rt =>
      apply backwardLoop_inv hOp
      intro j tj hj
      rw [lookupT_updateT] at hj
      by_cases he : root = j
      · subst he
        rw [if_pos rfl, hrt] at hj
        cases hj
        show (npOnes rt.data.shape).shape = rt.data.shape
        rfl
      · rw [if_neg he] at hj
        exact h j tj hj

/-- **C4 (amended)**: the invariant "`grad` has the same shape as
`value`" holds at construction (`Tensor.__init__`, hence every factory
and every `comm`-built tensor), is preserved by the elementwise
in-place operators (`+=`, `-=`, `*=`, `**=`, `/=`) and by `backward()`
(for kernels preserving it) — but **not** by `@=`
(see `c4_counterexample_imatmul`), which can replace `value` with a
buffer of a different shape while `grad` keeps the old shape. -/
theorem c4_amended_grad_shape_invariant :
    (∀ (d : Buf) (rg : Bool) (c : Option Context) (nm : String),
        gradMatchesValue (Tensor.init d rg c nm)) ∧
    (∀ (fwd : List Tensor → Buf × Context) (args : List Operand),
        gradMatchesValue (Tensor.comm fwd args)) ∧
    (∀ (t : Tensor) (x : Operand), gradMatchesValue t →
        gradMatchesValue (t.iadd x) ∧ gradMatchesValue (t.isub x) ∧
        gradMatchesValue (t.imul x) ∧ gradMatchesValue (t.ipow x) ∧
        gradMatchesValue (t.idiv x)) ∧
    (∀ (opB : Context → Buf → Store → Store),
        (∀ c g s, InvStore s → InvStore (opB c g s)) →
        ∀ (fuel : Nat) (store : Store) (root : TensorId) (debug : Bool),
          InvStore store → InvStore (Tensor.backward opB fuel store root debug).store) := by
  refine ⟨fun d rg c nm => rfl, fun fwd args => rfl,
    fun t x h => ⟨h, h, h, h, h⟩,
    fun opB hOp fuel store root debug h => backward_inv hOp fuel store root debug h⟩

/-! ## Concrete witnesses -/

/-- A single leaf object on the heap. -/
def leafStore : Store := [mkT .noCtx]

/-- A leaf (id 0) and a root (id 1) created from it. -/
def chainStore : Store := [mkT .noCtx, mkT (.ctx ⟨[.tensor 0]⟩)]

theorem invStore_leafStore : InvStore leafStore := by
  intro id t h
  cases id with
  | zero =>
    simp only [leafStore, lookupT, List.get?] at h
    cases h
    decide
  | succ n =>
    simp only [leafStore, lookupT, List.get?] at h
    cases h

theorem chainStore_no_root_consumer :
    ∀ id t c, lookupT chainStore id = some t → t.ctx = .ctx c →
      (1 : TensorId) ∉ c.tensorParents := by
  intro id t c h hc
  cases id with
  | zero =>
    simp only [chainStore, lookupT, List.get?] at h
    cases h
    cases hc
  | succ m =>
    cases m with
    | zero =>
      simp only [chainStore, lookupT, List.get?] at h
      cases h
      simp only [mkT] at hc
      cases hc
      decide
    | succ k =>
      simp only [chainStore, lookupT, List.get?] at h
      cases h

theorem c4_amended_witness :
    gradMatchesValue ((Tensor.zeros [3]).iadd rawVec5) ∧
    InvStore (Tensor.backward trivOpB 5 leafStore 0 false).store :=
  ⟨(c4_amended_grad_shape_invariant.2.2.1 (Tensor.zeros [3]) rawVec5 (by decide)).1,
   c4_amended_grad_shape_invariant.2.2.2 trivOpB (fun _ _ _ h => h) 5 leafStore 0 false
     invStore_leafStore⟩

theorem c6_witness :
    ∃ rt', lookupT (Tensor.backward trivOpB 5 chainStore 1 false).store 1 = some rt' ∧
      rt'.grad = npOnes (mkT (.ctx ⟨[.tensor 0]⟩)).data.shape ∧
      rt'.data = (mkT (.ctx ⟨[.tensor 0]⟩)).data ∧
      rt'.grad.shape = rt'.data.shape :=
  c6_backward_seeds_root_grad_to_ones trivOpB 5 false chainStore 1
    (mkT (.ctx ⟨[.tensor 0]⟩)) ⟨[1], [1]⟩ trivOpB_frame chainStore_no_root_consumer rfl rfl

theorem c7_witness :
    (∀ id ∈ (Tensor.backward trivOpB 5 chainStore 1 false).calls,
       ∃ t, lookupT (Tensor.backward trivOpB 5 chainStore 1 false).store id = some t ∧
         t.ctx = .del) ∧
    (∃ rt', lookupT (Tensor.backward trivOpB 5 chainStore 1 false).store 1 = some rt' ∧
       rt'.ctx = .del) ∧
    (∀ fuel2, 0 < fuel2 →
       Tensor.backward trivOpB fuel2 (Tensor.backward trivOpB 5 chainStore 1 false).store 1
           false
         = ⟨(Tensor.backward trivOpB 5 chainStore 1 false).store,
            some .attributeError, []⟩) :=
  c7_teardown_and_second_backward_raises trivOpB 5 chainStore 1
    (mkT (.ctx ⟨[.tensor 0]⟩)) ⟨[.tensor 0]⟩ ⟨[1], [1]⟩ trivOpB_frame rfl rfl rfl

theorem c9_witness :
    Tensor.backward trivOpB 3 leafStore 0 false =
      ⟨updateT leafStore 0 { mkT .noCtx with grad := npOnes (mkT .noCtx).data.shape },
       none, []⟩ ∧
    lookupT (Tensor.backward trivOpB 3 leafStore 0 false).store 0 =
      some { mkT .noCtx with grad := npOnes (mkT .noCtx).data.shape } :=
  c9_backward_on_leaf_succeeds trivOpB 3 leafStore 0 (mkT .noCtx) false rfl rfl
    (by decide)

end Giagrad

